import Mathlib

set_option linter.unusedVariables false

/-!
Shallow embedding of `src/zmq/scripts/format_jmh_dotnet_style.py`, the JMH
result formatter of ulala-x/jvm-zmq.  Python floats are modelled as exact
rationals (`ℚ`); the single square root (`variance ** 0.5`) is modelled with
`Real.sqrt`.  Python dicts keyed by `(msg_size, name)` tuples are modelled as
association lists with first-match lookup and replace-or-append insertion,
which is Python-dict faithful because keys are unique.
-/

namespace FormatJmh

/-- One raw JMH benchmark record, the shape the script reads from
`results.json`.  `params.messageSize` / `params.messageCount` appear here
already as integers (the `int(...)` parse of the numeric strings is external
input decoding); `mode` is the optional `params.get('mode')` entry; the three
`gc*` fields are the optional `secondaryMetrics` scores, `none` when the
metric entry is absent. -/
structure RawRecord where
  benchmark : String
  mode : Option String
  messageSize : Int
  messageCount : Int
  score : ℚ
  scoreError : ℚ
  rawData : List (List ℚ)
  gcAllocRate : Option ℚ
  gcAllocNorm : Option ℚ
  gcCount : Option ℚ
deriving DecidableEq

/-- Python's `str.split('.')` on the character list of a string: splits at
every `'.'`, keeping empty components. -/
def splitOnDot : List Char → List (List Char)
  | [] => [[]]
  | c :: cs =>
    match splitOnDot cs with
    | [] => [[]]
    | y :: ys => if c = '.' then [] :: y :: ys else (c :: y) :: ys

/-- Python's `benchmark_name.split('.')[-1]` (lines 90 and 96): the trailing
dot-separated component. -/
def lastComponent (s : String) : String :=
  String.mk ((splitOnDot s.data).getLastD [])

/-- Python's string comparison: lexicographic on code points, a strict prefix
ordering before anything longer. -/
def lexLe : List Char → List Char → Bool
  | [], _ => true
  | _ :: _, [] => false
  | a :: as, b :: bs => if a < b then true else if b < a then false else lexLe as bs

/-- String order used by Python's `sorted` over variant labels. -/
def strLe (a b : String) : Prop := lexLe a.data b.data = true

instance : DecidableRel strLe := fun a b =>
  decidable_of_iff (lexLe a.data b.data = true) Iff.rfl

/-- Arithmetic mean of a list, `sum(raw_data) / len(raw_data)` (line 106). -/
def listMean (l : List ℚ) : ℚ := l.sum / l.length

/-- Population variance, `sum((x - mean) ** 2 for x in raw_data) / len(raw_data)`
(line 107): the squared-deviation sum is divided by the sample count `N`,
not `N - 1`. -/
def popVariance (l : List ℚ) : ℚ :=
  (l.map (fun x => (x - listMean l) ^ 2)).sum / l.length

/-- The per-record entry stored in the `results` dict (lines 116-127).  The
script stores `stddev = variance ** 0.5` scaled; we carry the exact
`variance` and recover the stored real value through `stddevMs` below. -/
structure Stats where
  name : String
  msgSize : Int
  msgCount : Int
  mean : ℚ
  error : ℚ
  variance : ℚ
  score : ℚ
  gcAllocRate : ℚ
  gcAllocNorm : ℚ
  gcCount : ℚ
deriving DecidableEq

/-- Variant-label extraction (lines 89-96): the memory category takes the
trailing dot-separated component of the benchmark name; the receive category
takes `params.get('mode', 'UNKNOWN')`; any other type falls back to the
trailing-component rule. -/
def extractName (benchmarkType : String) (r : RawRecord) : String :=
  if benchmarkType = "memory" then lastComponent r.benchmark
  else if benchmarkType = "receive" then r.mode.getD "UNKNOWN"
  else lastComponent r.benchmark

/-- Derived statistics for one record (lines 98-127): `mean = 1000.0 / score`,
`error = 1000.0 * error / (score * score)`, population variance of
`rawData[0]`, GC metrics defaulting to `0` when absent. -/
def mkStats (benchmarkType : String) (r : RawRecord) : Stats where
  name := extractName benchmarkType r
  msgSize := r.messageSize
  msgCount := r.messageCount
  mean := 1000 / r.score
  error := 1000 * r.scoreError / (r.score * r.score)
  variance := popVariance (r.rawData.headD [])
  score := r.score
  gcAllocRate := r.gcAllocRate.getD 0
  gcAllocNorm := r.gcAllocNorm.getD 0
  gcCount := r.gcCount.getD 0

/-- The scaled standard deviation the script stores and prints,
`(variance ** 0.5) * 1000.0 / (score * score)` (lines 108 and 122). -/
noncomputable def stddevMs (s : Stats) : ℝ :=
  Real.sqrt (s.variance : ℝ) * 1000 / ((s.score : ℝ) * (s.score : ℝ))

/-- Substring test, Python's `needle in haystack` (lines 75 and 77). -/
def containsSub (haystack needle : String) : Bool :=
  decide (needle.toList <:+: haystack.toList)

/-- Category filter (lines 72-78): `memory` keeps records whose benchmark name
contains `MemoryStrategyBenchmark`, `receive` those containing
`ReceiveModeBenchmark`; any other type keeps nothing. -/
def matchesType (benchmarkType : String) (r : RawRecord) : Bool :=
  if benchmarkType = "memory" then containsSub r.benchmark "MemoryStrategyBenchmark"
  else if benchmarkType = "receive" then containsSub r.benchmark "ReceiveModeBenchmark"
  else false

/-- The `filtered_data` list (lines 72-78). -/
def filteredData (benchmarkType : String) (data : List RawRecord) : List RawRecord :=
  data.filter (matchesType benchmarkType)

/-- GroupKey `(msg_size, name)` of a record (line 115). -/
def groupKey (benchmarkType : String) (r : RawRecord) : Int × String :=
  (r.messageSize, extractName benchmarkType r)

/-- Python-dict insertion `d[k] = v`: replace the value of an existing key in
place, otherwise append the new pair. -/
def dictInsert {K V : Type} [DecidableEq K] : List (K × V) → K → V → List (K × V)
  | [], k, v => [(k, v)]
  | p :: rest, k, v => if p.1 = k then (k, v) :: rest else p :: dictInsert rest k v

/-- Python-dict lookup: value of the first (hence only) pair with the key. -/
def dlookup {K V : Type} [DecidableEq K] (m : List (K × V)) (k : K) : Option V :=
  (m.find? (fun p => p.1 = k)).map (fun p => p.2)

/-- A `results` map, keyed by GroupKey. -/
abbrev ResMap := List ((Int × String) × Stats)

/-- The `results` dict built by the parse loop (lines 84-127): every filtered
record is inserted under its GroupKey, later records overwriting earlier ones
with the same key. -/
def resultsOf (benchmarkType : String) (data : List RawRecord) : ResMap :=
  (filteredData benchmarkType data).foldl
    (fun m r => dictInsert m (groupKey benchmarkType r) (mkStats benchmarkType r)) []

/-- Per-category baseline variant name (lines 134-139). -/
def baselineName (benchmarkType : String) : Option String :=
  if benchmarkType = "memory" then some "ByteArray_SendRecv"
  else if benchmarkType = "receive" then some "BLOCKING"
  else none

/-- `baselines.get(size)` (lines 141-145 and 171): the stats stored under
`(size, baseline_name)`, when a baseline name exists and that key is present. -/
def baselineFor (benchmarkType : String) (m : ResMap) (size : Int) : Option Stats :=
  match baselineName benchmarkType with
  | some bn => dlookup m (size, bn)
  | none => none

/-- `is_baseline = (method == baseline_name) if baseline_name else False`
(line 185). -/
def isBaselineRow (benchmarkType : String) (method : String) : Bool :=
  match baselineName benchmarkType with
  | some bn => method = bn
  | none => false

/-- The Ratio column (lines 186-189): `r['mean'] / baseline['mean']` when a
baseline exists and the row is not the baseline, else `1.0`. -/
def timeRatio (benchmarkType : String) (m : ResMap) (size : Int) (method : String)
    (r : Stats) : ℚ :=
  match baselineFor benchmarkType m size with
  | some b => if isBaselineRow benchmarkType method then 1 else r.mean / b.mean
  | none => 1

/-- The Alloc Ratio column (lines 202-205): `r / b` guarded by
`baseline['gc_alloc_norm'] > 0`, `0` when the guard fails, `1.0` for the
baseline row or when no baseline exists. -/
def allocRatio (benchmarkType : String) (m : ResMap) (size : Int) (method : String)
    (r : Stats) : ℚ :=
  match baselineFor benchmarkType m size with
  | some b =>
    if isBaselineRow benchmarkType method then 1
    else if 0 < b.gcAllocNorm then r.gcAllocNorm / b.gcAllocNorm else 0
  | none => 1

/-- The pair of baseline-relative figures the script computes for one row of
the Performance Overview table: the Ratio and Alloc Ratio columns.  These are
the only baseline-relative outputs; no spread accompanies them. -/
structure RatioResult where
  timeRatio : ℚ
  allocRatio : ℚ
deriving DecidableEq

/-- RatioResult of the row stored under `(size, method)`, `none` when that key
is absent (the loop's `continue`, lines 174-176). -/
def rowRatioResult (benchmarkType : String) (m : ResMap) (size : Int)
    (method : String) : Option RatioResult :=
  (dlookup m (size, method)).map (fun r =>
    ⟨timeRatio benchmarkType m size method r, allocRatio benchmarkType m size method r⟩)

/-- The StdDev figure the Detailed Metrics table prints for the row stored
under `(size, method)` (lines 239 and 258): the row's own `r['stddev']`.
It is a function of the results map at that single key only. -/
noncomputable def detailedStdDev (m : ResMap) (size : Int) (method : String) : Option ℝ :=
  (dlookup m (size, method)).map stddevMs

/-- Sorted distinct variant labels, `sorted(set(k[1] for k in results.keys()))`
(line 154). -/
def allMethods (m : ResMap) : List String :=
  List.insertionSort strLe ((m.map (fun p => p.1.2)).dedup)

/-- Sorted distinct sizes, `sorted(set(k[0] for k in results.keys()))`
(line 130). -/
def msgSizes (m : ResMap) : List Int :=
  List.insertionSort (· ≤ ·) ((m.map (fun p => p.1.1)).dedup)

/-- Variant display order (lines 156-160): the baseline label first when it is
present among the detected labels, followed by the remaining labels in their
sorted order; otherwise just the sorted labels. -/
def methodOrder (benchmarkType : String) (m : ResMap) : List String :=
  match baselineName benchmarkType with
  | some bn =>
    if bn ∈ allMethods m then bn :: (allMethods m).filter (fun s => s ≠ bn)
    else allMethods m
  | none => allMethods m

/-- Modelled from the spec: the `time_ratio_stddev` formula of §3,
`time_ratio × sqrt((row.stddev/row.mean)² + (baseline.stddev/baseline.mean)²)`.
The script itself computes no such quantity; this definition follows the
spec's words so the claim can be compared against what the script emits. -/
noncomputable def spec_timeRatioStddev (r b : Stats) : ℝ :=
  ((r.mean / b.mean : ℚ) : ℝ) *
    Real.sqrt ((stddevMs r / (r.mean : ℝ)) ^ 2 + (stddevMs b / (b.mean : ℝ)) ^ 2)

/-! Concrete fixtures used by the witnesses and counterexamples.  `recBase` /
`recMsg` form one memory-category size group whose baseline is present;
`recMode` / `recNoMode` exercise the receive-category label extraction. -/

/-- Memory-category baseline record: score 500 ops/s (mean 2 ms), raw samples
`[6, 14]` (population variance 16), 100 B allocated per op. -/
def recBase : RawRecord where
  benchmark := "a.MemoryStrategyBenchmark.ByteArray_SendRecv"
  mode := none
  messageSize := 64
  messageCount := 10000
  score := 500
  scoreError := 5
  rawData := [[6, 14]]
  gcAllocRate := some 5
  gcAllocNorm := some 100
  gcCount := none

/-- Memory-category variant record: score 1000 ops/s (mean 1 ms), raw samples
`[4, 16]` (population variance 36), 50 B allocated per op. -/
def recMsg : RawRecord where
  benchmark := "a.MemoryStrategyBenchmark.Message_SendRecv"
  mode := none
  messageSize := 64
  messageCount := 10000
  score := 1000
  scoreError := 10
  rawData := [[4, 16]]
  gcAllocRate := some 5
  gcAllocNorm := some 50
  gcCount := some 2

/-- Receive-category record carrying a `mode` parameter. -/
def recMode : RawRecord where
  benchmark := "a.ReceiveModeBenchmark.benchReceive"
  mode := some "POLLER"
  messageSize := 64
  messageCount := 10000
  score := 100
  scoreError := 1
  rawData := [[10, 10]]
  gcAllocRate := none
  gcAllocNorm := none
  gcCount := none

/-- Receive-category record with no `mode` parameter. -/
def recNoMode : RawRecord where
  benchmark := "a.ReceiveModeBenchmark.benchReceive"
  mode := none
  messageSize := 128
  messageCount := 10000
  score := 100
  scoreError := 1
  rawData := [[10, 10]]
  gcAllocRate := none
  gcAllocNorm := none
  gcCount := none

/-- Stats literal matching what `mkStats "memory" recBase` computes. -/
def sBase : Stats where
  name := "ByteArray_SendRecv"
  msgSize := 64
  msgCount := 10000
  mean := 2
  error := 1 / 50
  variance := 16
  score := 500
  gcAllocRate := 5
  gcAllocNorm := 100
  gcCount := 0

/-- Stats literal matching what `mkStats "memory" recMsg` computes. -/
def sMsg : Stats where
  name := "Message_SendRecv"
  msgSize := 64
  msgCount := 10000
  mean := 1
  error := 1 / 100
  variance := 36
  score := 1000
  gcAllocRate := 5
  gcAllocNorm := 50
  gcCount := 2

/-- The baseline stats with a zero allocation figure. -/
def sZeroBase : Stats := { sBase with gcAllocNorm := 0 }

/-- A receive-category stats literal for the `POLLER` variant. -/
def sPoller : Stats where
  name := "POLLER"
  msgSize := 64
  msgCount := 10000
  mean := 10
  error := 1
  variance := 0
  score := 100
  gcAllocRate := 0
  gcAllocNorm := 0
  gcCount := 0

/-- A memory-category size group whose baseline is present. -/
def mMem : ResMap := [((64, "ByteArray_SendRecv"), sBase), ((64, "Message_SendRecv"), sMsg)]

/-- The same group with a zero allocation figure on the baseline. -/
def mZero : ResMap := [((64, "ByteArray_SendRecv"), sZeroBase), ((64, "Message_SendRecv"), sMsg)]

/-- A receive-category size group with no row for the `BLOCKING` baseline. -/
def mNoBase : ResMap := [((64, "POLLER"), sPoller)]

/-- A receive-category size group whose single row is the baseline itself,
holding the same stats as `mNoBase`'s row. -/
def mIsBase : ResMap := [((64, "BLOCKING"), { sPoller with name := "BLOCKING" })]

/-- A receive-category group containing both a non-baseline and the baseline
label, inserted out of display order. -/
def mRec : ResMap :=
  [((64, "NON_BLOCKING"), { sPoller with name := "NON_BLOCKING" }),
   ((64, "BLOCKING"), { sPoller with name := "BLOCKING" })]

/-- A second run of the `Message_SendRecv` variant: same benchmark name and
size as `recMsg` (hence the same GroupKey) but different measurements. -/
def recMsg2 : RawRecord := { recMsg with score := 2000, scoreError := 20, rawData := [[5, 15]] }

/-! Helper lemmas. -/

theorem lexLe_total : ∀ l₁ l₂ : List Char, lexLe l₁ l₂ = true ∨ lexLe l₂ l₁ = true
  | [], _ => Or.inl rfl
  | _ :: _, [] => Or.inr rfl
  | a :: as, b :: bs => by
    by_cases hab : a < b
    · exact Or.inl (by simp [lexLe, hab])
    · by_cases hba : b < a
      · exact Or.inr (by simp [lexLe, hba])
      · rcases lexLe_total as bs with h | h
        · exact Or.inl (by simp [lexLe, hab, hba, h])
        · exact Or.inr (by simp [lexLe, hba, hab, h])

theorem lexLe_cons_iff (a b : Char) (as bs : List Char) :
    lexLe (a :: as) (b :: bs) = true ↔ a < b ∨ (a = b ∧ lexLe as bs = true) := by
  by_cases hab : a < b
  · simp [lexLe, hab]
  · by_cases hba : b < a
    · simp [lexLe, hab, hba, ne_of_gt hba]
    · have hal : a = b := le_antisymm (not_lt.mp hba) (not_lt.mp hab)
      simp [lexLe, hab, hba, hal]

theorem lexLe_trans : ∀ l₁ l₂ l₃ : List Char,
    lexLe l₁ l₂ = true → lexLe l₂ l₃ = true → lexLe l₁ l₃ = true
  | [], _, _, _, _ => rfl
  | _ :: _, [], _, h, _ => by simp [lexLe] at h
  | _ :: _, _ :: _, [], _, h => by simp [lexLe] at h
  | a :: as, b :: bs, c :: cs, h₁, h₂ => by
    rw [lexLe_cons_iff] at h₁ h₂ ⊢
    rcases h₁ with h₁ | ⟨rfl, h₁⟩
    · rcases h₂ with h₂ | ⟨rfl, _⟩
      · exact Or.inl (lt_trans h₁ h₂)
      · exact Or.inl h₁
    · rcases h₂ with h₂ | ⟨rfl, h₂⟩
      · exact Or.inl h₂
      · exact Or.inr ⟨rfl, lexLe_trans as bs cs h₁ h₂⟩

instance : IsTotal String strLe := ⟨fun a b => lexLe_total a.data b.data⟩

instance : IsTrans String strLe := ⟨fun a b c => lexLe_trans a.data b.data c.data⟩

theorem dlookup_dictInsert_self {K V : Type} [DecidableEq K] :
    ∀ (m : List (K × V)) (k : K) (v : V), dlookup (dictInsert m k v) k = some v
  | [], k, v => by simp [dictInsert, dlookup]
  | p :: rest, k, v => by
    by_cases h : p.1 = k
    · simp [dictInsert, h, dlookup]
    · simpa [dictInsert, h, dlookup, List.find?] using dlookup_dictInsert_self rest k v

theorem resultsOf_append_single (benchmarkType : String) (l : List RawRecord)
    (r : RawRecord) (h : matchesType benchmarkType r = true) :
    resultsOf benchmarkType (l ++ [r]) =
      dictInsert (resultsOf benchmarkType l) (groupKey benchmarkType r)
        (mkStats benchmarkType r) := by
  simp [resultsOf, filteredData, List.filter_append, h, List.foldl_append]

/-! Claim theorems. -/

/-- Claim C1: for every raw record with `primary_score` s > 0, the derived
`mean_time_ms` equals exactly `1000 / s` (line 120 of the script). -/
theorem mean_time_is_reciprocal (benchmarkType : String) (r : RawRecord)
    (h : 0 < r.score) : (mkStats benchmarkType r).mean = 1000 / r.score := rfl

/-- Witness for C1 at the concrete record `recMsg` (score 1000). -/
theorem mean_time_is_reciprocal_witness :
    (0 : ℚ) < recMsg.score ∧ (mkStats "memory" recMsg).mean = 1000 / recMsg.score :=
  ⟨by norm_num [recMsg], mean_time_is_reciprocal "memory" recMsg (by norm_num [recMsg])⟩

/-- Claim C8: for every raw record, `error_ms` equals
`1000 × primary_score_error / primary_score²` (line 121 of the script), the
first-order propagation of the score error through the reciprocal. -/
theorem error_ms_propagation (benchmarkType : String) (r : RawRecord) :
    (mkStats benchmarkType r).error = 1000 * r.scoreError / r.score ^ 2 := by
  rw [pow_two]; rfl

/-- Claim C2: `stddev_ms` is the population standard deviation (divide by `N`,
not `N − 1`) of the first element of `raw_samples`, rescaled by
`1000 / primary_score²` (lines 105-108 and 122); for samples `[1, 2, 3, 4]`
the unscaled population stddev is `sqrt(1.25)`. -/
theorem stddev_population_formula :
    (∀ (benchmarkType : String) (r : RawRecord),
        stddevMs (mkStats benchmarkType r) =
          Real.sqrt ((popVariance (r.rawData.headD []) : ℚ) : ℝ) * 1000 /
            ((r.score : ℝ) * (r.score : ℝ)))
    ∧ popVariance [1, 2, 3, 4] = 5 / 4
    ∧ Real.sqrt ((popVariance [1, 2, 3, 4] : ℚ) : ℝ) = Real.sqrt 1.25 := by
  refine ⟨fun benchmarkType r => rfl, by norm_num [popVariance, listMean], ?_⟩
  norm_num [popVariance, listMean]

/-- Claim C3: when a size group has a baseline, every non-baseline row's
`time_ratio` is `row.mean / baseline.mean`, and the baseline's own row always
has `time_ratio = 1`, regardless of any of its statistics
(lines 184-189 of the script). -/
theorem time_ratio_vs_baseline (benchmarkType : String) (m : ResMap) (size : Int)
    (method : String) (r b : Stats)
    (hr : dlookup m (size, method) = some r)
    (hb : baselineFor benchmarkType m size = some b) :
    (isBaselineRow benchmarkType method = false →
        (rowRatioResult benchmarkType m size method).map (fun x => x.timeRatio)
          = some (r.mean / b.mean))
    ∧ (isBaselineRow benchmarkType method = true →
        (rowRatioResult benchmarkType m size method).map (fun x => x.timeRatio)
          = some 1) := by
  constructor <;> intro h <;> simp [rowRatioResult, hr, timeRatio, hb, h]

/-- Witness for C3 on the group `mMem`: the variant row's ratio is
`sMsg.mean / sBase.mean` and the baseline row's ratio is `1`. -/
theorem time_ratio_vs_baseline_witness :
    dlookup mMem (64, "Message_SendRecv") = some sMsg
    ∧ baselineFor "memory" mMem 64 = some sBase
    ∧ isBaselineRow "memory" "Message_SendRecv" = false
    ∧ (rowRatioResult "memory" mMem 64 "Message_SendRecv").map (fun x => x.timeRatio)
        = some (sMsg.mean / sBase.mean)
    ∧ (rowRatioResult "memory" mMem 64 "ByteArray_SendRecv").map (fun x => x.timeRatio)
        = some 1 :=
  ⟨rfl, rfl, rfl,
    (time_ratio_vs_baseline "memory" mMem 64 "Message_SendRecv" sMsg sBase rfl rfl).1 rfl,
    (time_ratio_vs_baseline "memory" mMem 64 "ByteArray_SendRecv" sBase sBase rfl rfl).2 rfl⟩

/-- Claim C5: for every non-baseline row, `alloc_ratio` is the row's
`alloc_per_op` over the baseline's, except that a zero baseline allocation
figure yields `alloc_ratio = 0` (the `> 0` guard of lines 202-205, so no
division by zero is attempted); the baseline's own row has `alloc_ratio = 1`. -/
theorem alloc_ratio_zero_guard (benchmarkType : String) (m : ResMap) (size : Int)
    (method : String) (r b : Stats)
    (hb : baselineFor benchmarkType m size = some b) :
    (isBaselineRow benchmarkType method = false → 0 < b.gcAllocNorm →
        allocRatio benchmarkType m size method r = r.gcAllocNorm / b.gcAllocNorm)
    ∧ (isBaselineRow benchmarkType method = false → b.gcAllocNorm = 0 →
        allocRatio benchmarkType m size method r = 0)
    ∧ (isBaselineRow benchmarkType method = true →
        allocRatio benchmarkType m size method r = 1) := by
  refine ⟨fun h hpos => ?_, fun h hzero => ?_, fun h => ?_⟩
  · simp [allocRatio, hb, h, hpos]
  · simp [allocRatio, hb, h, hzero]
  · simp [allocRatio, hb, h]

/-- Witness for C5: over `mMem` (baseline allocation 100) the variant row's
alloc ratio divides; over `mZero` (baseline allocation 0) it is `0`; the
baseline row itself gets `1`. -/
theorem alloc_ratio_zero_guard_witness :
    baselineFor "memory" mMem 64 = some sBase
    ∧ (0 : ℚ) < sBase.gcAllocNorm
    ∧ allocRatio "memory" mMem 64 "Message_SendRecv" sMsg
        = sMsg.gcAllocNorm / sBase.gcAllocNorm
    ∧ sZeroBase.gcAllocNorm = 0
    ∧ allocRatio "memory" mZero 64 "Message_SendRecv" sMsg = 0
    ∧ allocRatio "memory" mMem 64 "ByteArray_SendRecv" sBase = 1 :=
  ⟨rfl, by norm_num [sBase],
    (alloc_ratio_zero_guard "memory" mMem 64 "Message_SendRecv" sMsg sBase rfl).1
      rfl (by norm_num [sBase]),
    rfl,
    (alloc_ratio_zero_guard "memory" mZero 64 "Message_SendRecv" sMsg sZeroBase rfl).2.1
      rfl rfl,
    (alloc_ratio_zero_guard "memory" mMem 64 "ByteArray_SendRecv" sBase sBase rfl).2.2 rfl⟩

/-- Claim C6, counterexample to the distinctness part: the RatioResult the
script produces for a row whose size group has no baseline (`mNoBase`, which
lacks a `BLOCKING` row) is `⟨1, 1⟩`, identical to the RatioResult of a
genuine baseline self-comparison (`mIsBase`, whose row is the `BLOCKING`
baseline itself, carrying the same stats).  Nothing observable flags the
"no baseline" condition to the caller. -/
theorem no_baseline_indistinguishable :
    rowRatioResult "receive" mNoBase 64 "POLLER" = some ⟨1, 1⟩
    ∧ rowRatioResult "receive" mIsBase 64 "BLOCKING" = some ⟨1, 1⟩
    ∧ rowRatioResult "receive" mNoBase 64 "POLLER"
        = rowRatioResult "receive" mIsBase 64 "BLOCKING" :=
  ⟨rfl, rfl, rfl⟩

/-- Amended C6: when a size group has no row for the baseline variant, every
row present in that group takes the degenerate fallback `time_ratio = 1`,
`alloc_ratio = 1` (no spread is computed at all); the condition is visible
only in the aggregator's local baseline lookup (`baselineFor … = none`), not
in anything returned to the caller. -/
theorem no_baseline_fallback (benchmarkType : String) (m : ResMap) (size : Int)
    (method : String) (r : Stats)
    (hr : dlookup m (size, method) = some r)
    (hb : baselineFor benchmarkType m size = none) :
    rowRatioResult benchmarkType m size method = some ⟨1, 1⟩ := by
  simp [rowRatioResult, hr, timeRatio, allocRatio, hb]

/-- Witness for the amended C6 on `mNoBase`. -/
theorem no_baseline_fallback_witness :
    dlookup mNoBase (64, "POLLER") = some sPoller
    ∧ baselineFor "receive" mNoBase 64 = none
    ∧ rowRatioResult "receive" mNoBase 64 "POLLER" = some ⟨1, 1⟩ :=
  ⟨rfl, rfl, no_baseline_fallback "receive" mNoBase 64 "POLLER" sPoller rfl rfl⟩

/-- Claim C7: the ordered variant list is the sorted (lexical, by code point)
deduplicated label set with the baseline label moved to the front when it is
present (lines 154-160); the script defines no other canonical per-category
display order, so the lexical/baseline-first branch is the whole behavior. -/
theorem variant_order (benchmarkType : String) (m : ResMap) :
    List.Sorted strLe (allMethods m)
    ∧ (∀ x, x ∈ allMethods m ↔ x ∈ m.map (fun p => p.1.2))
    ∧ (∀ bn, baselineName benchmarkType = some bn → bn ∈ allMethods m →
        methodOrder benchmarkType m = bn :: (allMethods m).filter (fun s => s ≠ bn)
          ∧ List.Sorted strLe ((allMethods m).filter (fun s => s ≠ bn))
          ∧ (∀ x, x ∈ methodOrder benchmarkType m ↔ x ∈ allMethods m))
    ∧ (∀ bn, baselineName benchmarkType = some bn → bn ∉ allMethods m →
        methodOrder benchmarkType m = allMethods m)
    ∧ (baselineName benchmarkType = none → methodOrder benchmarkType m = allMethods m) := by
  refine ⟨List.sorted_insertionSort strLe _, ?_, ?_, ?_, ?_⟩
  · intro x
    rw [allMethods, (List.perm_insertionSort strLe _).mem_iff, List.mem_dedup]
  · intro bn hbn hmem
    refine ⟨by simp [methodOrder, hbn, hmem], ?_, ?_⟩
    · exact List.Pairwise.filter _ (List.sorted_insertionSort strLe _)
    · intro x
      simp only [methodOrder, hbn, hmem, if_pos, List.mem_cons, List.mem_filter,
        decide_eq_true_eq]
      by_cases hx : x = bn
      · simp [hx, hmem]
      · simp [hx]
  · intro bn hbn hmem
    simp [methodOrder, hbn, hmem]
  · intro hbn
    simp [methodOrder, hbn]

/-- Witness for C7 on `mRec`: the detected labels sort lexically to
`["BLOCKING", "NON_BLOCKING"]` and the baseline `BLOCKING` leads the order. -/
theorem variant_order_witness :
    baselineName "receive" = some "BLOCKING"
    ∧ "BLOCKING" ∈ allMethods mRec
    ∧ allMethods mRec = ["BLOCKING", "NON_BLOCKING"]
    ∧ methodOrder "receive" mRec
        = "BLOCKING" :: (allMethods mRec).filter (fun s => s ≠ "BLOCKING")
    ∧ methodOrder "receive" mRec = ["BLOCKING", "NON_BLOCKING"] :=
  ⟨rfl, by decide, by decide,
    ((variant_order "receive" mRec).2.2.1 "BLOCKING" rfl (by decide)).1, by decide⟩

/-- Claim C9: a record classified into the memory category gets as variant
label the trailing dot-separated component of its benchmark name; one
classified into the receive category gets the `mode` parameter's value, or
the sentinel `"UNKNOWN"` when that parameter is absent, with no failure
(lines 72-96). -/
theorem variant_label_extraction :
    (∀ (data : List RawRecord) (r : RawRecord), r ∈ filteredData "memory" data →
        extractName "memory" r = lastComponent r.benchmark)
    ∧ (∀ (data : List RawRecord) (r : RawRecord), r ∈ filteredData "receive" data →
        (∀ v, r.mode = some v → extractName "receive" r = v)
        ∧ (r.mode = none → extractName "receive" r = "UNKNOWN")) := by
  refine ⟨fun data r _ => rfl, fun data r _ => ⟨fun v hv => ?_, fun hv => ?_⟩⟩ <;>
    simp [extractName, hv]

/-- Witness for C9: `recMsg` gets its method name, `recMode` its `mode`
value, `recNoMode` the `UNKNOWN` sentinel. -/
theorem variant_label_extraction_witness :
    recMsg ∈ filteredData "memory" [recMsg]
    ∧ extractName "memory" recMsg = lastComponent recMsg.benchmark
    ∧ extractName "memory" recMsg = "Message_SendRecv"
    ∧ recMode ∈ filteredData "receive" [recMode, recNoMode]
    ∧ recNoMode ∈ filteredData "receive" [recMode, recNoMode]
    ∧ extractName "receive" recMode = "POLLER"
    ∧ extractName "receive" recNoMode = "UNKNOWN" :=
  ⟨List.mem_filter.mpr ⟨by simp, rfl⟩, variant_label_extraction.1 [recMsg] recMsg
      (List.mem_filter.mpr ⟨by simp, rfl⟩),
    by decide,
    List.mem_filter.mpr ⟨by simp, rfl⟩, List.mem_filter.mpr ⟨by simp, rfl⟩,
    (variant_label_extraction.2 [recMode, recNoMode] recMode
        (List.mem_filter.mpr ⟨by simp, rfl⟩)).1 "POLLER" rfl,
    (variant_label_extraction.2 [recMode, recNoMode] recNoMode
        (List.mem_filter.mpr ⟨by simp, rfl⟩)).2 rfl⟩

/-- Claim C10: when two records of the same category share a GroupKey, the
stats stored under that key are those of the record occurring later in the
input; if the two records derive different stats, the earlier record's stats
are no longer retrievable (lines 115-127, the dict assignment). -/
theorem duplicate_key_last_record_wins (benchmarkType : String)
    (xs ys : List RawRecord) (r₁ r₂ : RawRecord)
    (h₁ : matchesType benchmarkType r₁ = true)
    (h₂ : matchesType benchmarkType r₂ = true)
    (hk : groupKey benchmarkType r₁ = groupKey benchmarkType r₂) :
    dlookup (resultsOf benchmarkType (xs ++ r₁ :: ys ++ [r₂])) (groupKey benchmarkType r₁)
        = some (mkStats benchmarkType r₂)
    ∧ (mkStats benchmarkType r₁ ≠ mkStats benchmarkType r₂ →
        dlookup (resultsOf benchmarkType (xs ++ r₁ :: ys ++ [r₂])) (groupKey benchmarkType r₁)
          ≠ some (mkStats benchmarkType r₁)) := by
  have hsplit : xs ++ r₁ :: ys ++ [r₂] = (xs ++ r₁ :: ys) ++ [r₂] := by simp
  have hmain : dlookup (resultsOf benchmarkType (xs ++ r₁ :: ys ++ [r₂]))
      (groupKey benchmarkType r₁) = some (mkStats benchmarkType r₂) := by
    rw [hsplit, resultsOf_append_single _ _ _ h₂, hk, dlookup_dictInsert_self]
  refine ⟨hmain, fun hne hcontr => hne ?_⟩
  rw [hmain] at hcontr
  exact (Option.some.injEq _ _ ▸ hcontr : mkStats benchmarkType r₂ = _).symm ▸ rfl

/-- Witness for C10: `recMsg` and `recMsg2` share the GroupKey
`(64, "Message_SendRecv")`; after processing `[recBase, recMsg, recMsg2]`
the stored stats are those of `recMsg2`. -/
theorem duplicate_key_last_record_wins_witness :
    matchesType "memory" recMsg = true
    ∧ matchesType "memory" recMsg2 = true
    ∧ groupKey "memory" recMsg = groupKey "memory" recMsg2
    ∧ dlookup (resultsOf "memory" ([recBase] ++ recMsg :: [] ++ [recMsg2]))
        (groupKey "memory" recMsg) = some (mkStats "memory" recMsg2) :=
  ⟨rfl, rfl, rfl,
    (duplicate_key_last_record_wins "memory" [recBase] [] recMsg recMsg2 rfl rfl rfl).1⟩

/-- Helper: a square root evaluated by exhibiting the square. -/
theorem sqrt_eq_of_sq {x y : ℝ} (hy : 0 ≤ y) (h : x = y ^ 2) : Real.sqrt x = y := by
  rw [h]; exact Real.sqrt_sq hy

/-- Claim C4, counterexample: the script computes no `time_ratio_stddev`.
The only spread it derives for the variant row `recMsg` (mean 1 ms, stddev
3/500 ms) is that row's own `stddev`, `3/500`; the spec's propagation formula
against baseline `recBase` (mean 2 ms, stddev 2/125 ms) would give
`(1/2) · sqrt((3/500)² + (1/125)²) = 1/200 ≠ 3/500`. -/
theorem ratio_stddev_counterexample :
    stddevMs (mkStats "memory" recMsg) = 3 / 500
    ∧ spec_timeRatioStddev (mkStats "memory" recMsg) (mkStats "memory" recBase) = 1 / 200
    ∧ stddevMs (mkStats "memory" recMsg)
        ≠ spec_timeRatioStddev (mkStats "memory" recMsg) (mkStats "memory" recBase) := by
  have hvarR : (mkStats "memory" recMsg).variance = 36 := by
    norm_num [mkStats, recMsg, popVariance, listMean]
  have hvarB : (mkStats "memory" recBase).variance = 16 := by
    norm_num [mkStats, recBase, popVariance, listMean]
  have hscoreR : (mkStats "memory" recMsg).score = 1000 := rfl
  have hscoreB : (mkStats "memory" recBase).score = 500 := rfl
  have hmeanR : (mkStats "memory" recMsg).mean = 1 := by norm_num [mkStats, recMsg]
  have hmeanB : (mkStats "memory" recBase).mean = 2 := by norm_num [mkStats, recBase]
  have hsR : stddevMs (mkStats "memory" recMsg) = 3 / 500 := by
    rw [stddevMs, hvarR, hscoreR]
    rw [sqrt_eq_of_sq (y := 6) (by norm_num) (by push_cast; norm_num)]
    push_cast
    norm_num
  have hsB : stddevMs (mkStats "memory" recBase) = 2 / 125 := by
    rw [stddevMs, hvarB, hscoreB]
    rw [sqrt_eq_of_sq (y := 4) (by norm_num) (by push_cast; norm_num)]
    push_cast
    norm_num
  have hspec : spec_timeRatioStddev (mkStats "memory" recMsg) (mkStats "memory" recBase)
      = 1 / 200 := by
    rw [spec_timeRatioStddev, hsR, hsB, hmeanR, hmeanB]
    rw [sqrt_eq_of_sq (y := 1 / 100) (by norm_num) (by push_cast; norm_num)]
    push_cast
    norm_num
  exact ⟨hsR, hspec, by rw [hsR, hspec]; norm_num⟩

/-- Amended C4: no ratio spread is derived anywhere in the script.  The
StdDev figure it emits for the row stored at `(size, method)` is that row's
own scaled population standard deviation, `sqrt(variance) · 1000 / score²`,
a function of the row alone — the baseline does not enter it. -/
theorem row_spread_is_own_stddev (m : ResMap) (size : Int) (method : String)
    (r : Stats) (hr : dlookup m (size, method) = some r) :
    detailedStdDev m size method
      = some (Real.sqrt ((r.variance : ℚ) : ℝ) * 1000 / ((r.score : ℝ) * (r.score : ℝ))) := by
  simp [detailedStdDev, hr, stddevMs]

/-- Witness for the amended C4 at the row `sMsg` of `mMem`. -/
theorem row_spread_is_own_stddev_witness :
    dlookup mMem (64, "Message_SendRecv") = some sMsg
    ∧ detailedStdDev mMem 64 "Message_SendRecv"
        = some (Real.sqrt ((sMsg.variance : ℚ) : ℝ) * 1000
            / ((sMsg.score : ℝ) * (sMsg.score : ℝ))) :=
  ⟨rfl, row_spread_is_own_stddev mMem 64 "Message_SendRecv" sMsg rfl⟩

end FormatJmh
